import Mathlib

/-!
Shallow embedding of the `lsh` shell core (final revision of the shell
source: `RunCommand`, `handle_command`, `handle_file_error`,
`handle_directory_error`, `KillChildrenOnSignal`, `CountCommands`, and the
signal setup in `main`).

The structured command produced by the external parser is modelled by
`Command`; the parser delivers the stage list in reverse pipeline order
(rightmost stage first), as documented at `PrintPgm` in the source.  The
operating environment (outcomes of `open`, `creat`, `pipe`, `chdir`,
`execvp`) is modelled by an `Env` oracle, and one invocation of
`RunCommand` is a pure function from the environment, the current working
directory, and the command to a `RunResult` trace recording the stderr
diagnostics, the children forked (with everything the child does before
and after the `execvp`), the job record published for the interrupt
handler, the pids waited on, whether the interpreter process itself
exited, the final working directory, the descriptors closed in the
parent, and the final signal dispositions.
-/

namespace Lsh

/-- Error codes distinguished by the shell's error handlers. -/
inductive Errno where
  | eacces | eisdir | enoent | enotdir | efault | eother (n : Nat)
deriving DecidableEq, Repr

/-- Numeric value of an error code (Linux values), used by the
`%i` format in `handle_directory_error`'s default branch. -/
def errnoCode : Errno → Nat
  | .eacces => 13
  | .eisdir => 21
  | .enoent => 2
  | .enotdir => 20
  | .efault => 14
  | .eother n => n

/-- Disposition of a signal: default, ignored, or the shell's
`KillChildrenOnSignal` handler. -/
inductive Disposition where
  | dfl | ign | killHandler
deriving DecidableEq, Repr

/-- The signals the shell manipulates or sends. -/
inductive Signal where
  | sigint | sigchld | sigkill
deriving DecidableEq, Repr

def STDIN_FILENO : Nat := 0
def STDOUT_FILENO : Nat := 1
def STDERR_FILENO : Nat := 2

/-- A stage's argument vector (`pgmlist`): program name first; the null
sentinel is modelled by the end of the list. -/
abbrev Stage := List String

/-- The parser's `Command` structure: `pgm` is the stage list in the
order the parser delivers it (reverse pipeline order, rightmost stage
first), `rstdin`/`rstdout` the optional redirections, `background` the
`&` flag. -/
structure Command where
  pgm : List Stage
  rstdin : Option String
  rstdout : Option String
  background : Bool
deriving Repr

/-- `CountCommands`: length of the `Pgm` list. -/
def CountCommands (pgm : List Stage) : Nat := pgm.length

/-- Environment oracle: outcomes of the system calls the shell makes.
`openErr p = some e` means `open(p, O_RDONLY)` fails with `errno = e`;
likewise `creatErr` for `creat`, `pipeFails k` for the k-th `pipe` call
of the invocation, `chdirErr a` for `chdir` (argument `none` models the
null pointer passed when `cd` has no argument), and `execErr prog` for
`execvp`. -/
structure Env where
  openErr : String → Option Errno
  creatErr : String → Option Errno
  pipeFails : Nat → Bool
  chdirErr : Option String → Option Errno
  execErr : String → Option Errno

/-- `handle_file_error`: the stderr message chosen from `errno` after a
failed `open`/`creat`. -/
def handle_file_error : Errno → String
  | .eacces => "Access denied"
  | .eisdir => "File is a directory"
  | .enoent => "No such file"
  | _ => "Could not open file"

/-- `handle_directory_error`: the stderr message chosen from `errno`
after a failed `chdir`. -/
def handle_directory_error (e : Errno) : String :=
  match e with
  | .eacces => "Permission denied"
  | .enoent => "No such path"
  | .enotdir => "Not a directory"
  | .efault => "Invalid argument"
  | _ => "Could not change working directory (" ++ toString (errnoCode e) ++ ")"

/-- `command[0]`: the program name of a stage (its argument vector is
non-empty by the parser's invariant, so the default is never used). -/
def progOf (command : Stage) : String := command.headD ""

/-- `handle_command` (child side): `execvp(command[0], command)`; on
failure, the stderr message chosen from `errno`.  Returns the `execvp`
outcome and the messages printed. -/
def handle_command (env : Env) (command : Stage) : Option Errno × List String :=
  let prog := progOf command
  match env.execErr prog with
  | none => (none, [])
  | some .enoent => (some .enoent, ["Could not find executable: " ++ prog])
  | some e => (some e, ["Failed to execute: " ++ prog])

/-- Everything a forked child does, as recorded by the fork branch of
`RunCommand`: `signal(SIGINT, SIG_IGN)`, the descriptors installed on
the standard input/output slots by the conditional `dup2`s (fd 2 is
never touched, so the child's error stream stays the interpreter's),
`handle_command`, and the final `exit(0)` that runs only when `execvp`
returned.  `cwd` is the working directory inherited at fork time. -/
structure ChildSpec where
  pid : Nat
  sigint : Disposition
  stdinFd : Nat
  stdoutFd : Nat
  stderrFd : Nat
  prog : String
  argv : Stage
  execErr : Option Errno
  stderrMsgs : List String
  exitStatus : Option Nat
  cwd : String
deriving DecidableEq, Repr

/-- The body of the `child == 0` branch of `RunCommand`. -/
def childRun (env : Env) (command : Stage) (pid child_in child_out : Nat)
    (cwd : String) : ChildSpec :=
  let r := handle_command env command
  { pid := pid
    sigint := .ign
    stdinFd := child_in
    stdoutFd := child_out
    stderrFd := STDERR_FILENO
    prog := progOf command
    argv := command
    execErr := r.fst
    stderrMsgs := r.snd
    exitStatus := match r.fst with
      | none => none
      | some _ => some 0
    cwd := cwd }

/-- The mutable state of `RunCommand`'s stage loop. -/
structure LoopState where
  child_in : Nat
  child_out : Nat
  last_in : Nat
  nextFd : Nat
  pipeCount : Nat
  command_counter : Nat
  idx : Nat
  pids : List (Nat × Nat)
  spawned : List ChildSpec
  msgs : List String
  closedParent : List Nat
  cwd : String
  exited : Option Int
deriving Repr

/-- Reading `children[i]`: the pid recorded at index `i` of the
`command_pids` array; `none` models an uninitialised slot. -/
def lookupPid : List (Nat × Nat) → Nat → Option Nat
  | [], _ => none
  | (j, p) :: rest, i => if j = i then some p else lookupPid rest i

/-- The `status == -1` branch of the `pipe` call: print `Pipe failed`,
close `child_out` when it is not the inherited standard output, and
break out of the loop. -/
def breakPipeState (s : LoopState) : LoopState :=
  { s with pipeCount := s.pipeCount + 1
           msgs := s.msgs ++ ["Pipe failed"]
           closedParent :=
             if s.child_out ≠ STDOUT_FILENO then s.closedParent ++ [s.child_out]
             else s.closedParent }

/-- The `cd` built-in branch: `chdir(command[1])` runs in the
interpreter process (no fork); on failure `handle_directory_error`
reports and the working directory is unchanged.  (`command[1]` is the
null sentinel — modelled `none` — when `cd` has no argument.) -/
def cdStep (env : Env) (command : Stage) (s1 : LoopState) : LoopState :=
  let arg := command.get? 1
  match env.chdirErr arg with
  | none => { s1 with cwd := arg.getD s1.cwd }
  | some e => { s1 with msgs := s1.msgs ++ [handle_directory_error e] }

/-- The fork branch: spawn the child (`childRun`), then in the parent
close `child_in`/`child_out` when they are not the inherited standard
slots, record the pid at the current index, and when a pipe was created
this iteration make its write end the next stage's output. -/
def forkStep (env : Env) (command : Stage) (pipeW : Option Nat)
    (s1 : LoopState) : LoopState :=
  let pid := 1000 + s1.spawned.length
  let child := childRun env command pid s1.child_in s1.child_out s1.cwd
  let closed1 :=
    if s1.child_in ≠ STDIN_FILENO then s1.closedParent ++ [s1.child_in]
    else s1.closedParent
  let closed2 :=
    if s1.child_out ≠ STDOUT_FILENO then closed1 ++ [s1.child_out]
    else closed1
  { s1 with
      spawned := s1.spawned ++ [child]
      pids := s1.pids ++ [(s1.idx, pid)]
      closedParent := closed2
      child_out := pipeW.getD s1.child_out
      idx := s1.idx + 1 }

/-- The `while (pgm != NULL)` loop of `RunCommand`, one iteration per
stage in delivered order.  When the stage is not the last one a pipe is
created first (`breakPipeState` on failure); the `exit` built-in
terminates the interpreter; the `cd` built-in runs in the interpreter
and zeroes `command_counter`; every other stage is forked
(`forkStep`). -/
def runLoop (env : Env) : List Stage → LoopState → LoopState
  | [], s => s
  | command :: rest, s =>
    if !rest.isEmpty && env.pipeFails s.pipeCount then
      breakPipeState s
    else
      let pipeW : Option Nat := if rest.isEmpty then none else some (s.nextFd + 1)
      let s1 :=
        if rest.isEmpty then { s with child_in := s.last_in }
        else { s with child_in := s.nextFd, nextFd := s.nextFd + 2,
                      pipeCount := s.pipeCount + 1 }
      if progOf command = "exit" then
        { s1 with exited := some 0 }
      else if progOf command = "cd" then
        runLoop env rest
          { (cdStep env command s1) with command_counter := 0, idx := s1.idx + 1 }
      else
        runLoop env rest (forkStep env command pipeW s1)

/-- The observable outcome of one `RunCommand` invocation. -/
structure RunResult where
  msgs : List String
  spawned : List ChildSpec
  published : Option (List (Nat × Nat) × Nat)
  waited : List (Option Nat)
  shellExited : Option Int
  finalCwd : String
  closedFds : List Nat
  sigintFinal : Disposition
  sigchldFinal : Disposition
deriving Repr

/-- `KillChildrenOnSignal`: send `SIGKILL` to `children[i]` for each
`i < numChildren` (the recorded count is the iteration basis). -/
def KillChildrenOnSignal (children : List (Nat × Nat)) (numChildren : Nat) :
    List (Option Nat × Signal) :=
  (List.range numChildren).map (fun i => (lookupPid children i, Signal.sigkill))

/-- The tail of `RunCommand` once the redirections are resolved: run the
stage loop from initial state `s0`, then the completion phase — for a
foreground command publish the job record (`children := command_pids`,
`numChildren := command_counter`), arm `KillChildrenOnSignal` on the
interrupt signal, wait on `command_pids[0..command_counter)`, zero
`numChildren` and restore the interrupt signal to ignored. -/
def RunCommandFinish (env : Env) (sigint0 sigchld0 : Disposition)
    (cmd : Command) (s0 : LoopState) : RunResult :=
  let s := runLoop env cmd.pgm s0
  match s.exited with
  | some code =>
    { msgs := s.msgs, spawned := s.spawned, published := none,
      waited := [], shellExited := some code, finalCwd := s.cwd,
      closedFds := s.closedParent, sigintFinal := sigint0,
      sigchldFinal := sigchld0 }
  | none =>
    if cmd.background then
      { msgs := s.msgs, spawned := s.spawned, published := none,
        waited := [], shellExited := none, finalCwd := s.cwd,
        closedFds := s.closedParent, sigintFinal := sigint0,
        sigchldFinal := sigchld0 }
    else
      { msgs := s.msgs, spawned := s.spawned,
        published := some (s.pids, s.command_counter),
        waited := (List.range s.command_counter).map (lookupPid s.pids),
        shellExited := none, finalCwd := s.cwd,
        closedFds := s.closedParent, sigintFinal := .ign,
        sigchldFinal := sigchld0 }

/-- The middle of `RunCommand` once `last_in` is determined (`fdNext` is
the next free descriptor number): `creat` of `rstdout`, which on failure
reports, closes `last_in` when it was opened, and returns; then the loop
and completion phase. -/
def RunCommandAfterIn (env : Env) (cwd0 : String)
    (sigint0 sigchld0 : Disposition) (cmd : Command)
    (cc last_in fdNext : Nat) : RunResult :=
  match cmd.rstdout with
  | some path =>
    match env.creatErr path with
    | some e =>
      { msgs := [handle_file_error e], spawned := [], published := none,
        waited := [], shellExited := none, finalCwd := cwd0,
        closedFds := if last_in ≠ STDIN_FILENO then [last_in] else [],
        sigintFinal := sigint0, sigchldFinal := sigchld0 }
    | none =>
      RunCommandFinish env sigint0 sigchld0 cmd
        { child_in := STDIN_FILENO, child_out := fdNext, last_in := last_in,
          nextFd := fdNext + 1, pipeCount := 0, command_counter := cc, idx := 0,
          pids := [], spawned := [], msgs := [], closedParent := [],
          cwd := cwd0, exited := none }
  | none =>
    RunCommandFinish env sigint0 sigchld0 cmd
      { child_in := STDIN_FILENO, child_out := STDOUT_FILENO, last_in := last_in,
        nextFd := fdNext, pipeCount := 0, command_counter := cc, idx := 0,
        pids := [], spawned := [], msgs := [], closedParent := [],
        cwd := cwd0, exited := none }

/-- `RunCommand`: open the `rstdin` redirection (failure reports the file
error and returns at once), then the rest of the invocation.
`sigint0`/`sigchld0` are the dispositions on entry (both ignored, set in
`main`). -/
def RunCommand (env : Env) (cwd0 : String)
    (sigint0 sigchld0 : Disposition) (cmd : Command) : RunResult :=
  let cc := CountCommands cmd.pgm
  match cmd.rstdin with
  | some path =>
    match env.openErr path with
    | some e =>
      { msgs := [handle_file_error e], spawned := [], published := none,
        waited := [], shellExited := none, finalCwd := cwd0, closedFds := [],
        sigintFinal := sigint0, sigchldFinal := sigchld0 }
    | none => RunCommandAfterIn env cwd0 sigint0 sigchld0 cmd cc 3 4
  | none => RunCommandAfterIn env cwd0 sigint0 sigchld0 cmd cc STDIN_FILENO 3

/-- The signal dispositions installed by `main` before the read-eval
loop: both the interrupt and the child-termination signal are ignored. -/
def mainInitialSignals : Signal → Disposition
  | .sigint => .ign
  | .sigchld => .ign
  | .sigkill => .dfl

/-! ### Concrete environments and commands used as evaluation inputs -/

/-- An environment where every system call succeeds; `chdir` on the null
pointer faults (`EFAULT`), as the kernel guarantees. -/
def envOk : Env :=
  { openErr := fun _ => none
    creatErr := fun _ => none
    pipeFails := fun _ => false
    chdirErr := fun a => match a with
      | none => some .efault
      | some _ => none
    execErr := fun _ => none }

/-- Like `envOk` except `execvp` of the program `nosuch` fails with
`ENOENT`. -/
def envExecFail : Env :=
  { envOk with execErr := fun p => if p = "nosuch" then some .enoent else none }

/-- Like `envOk` except the second `pipe` call (index 1) fails. -/
def envPipeFail1 : Env :=
  { envOk with pipeFails := fun k => k == 1 }

/-- Like `envOk` except every `open` fails with `ENOENT`. -/
def envNoFile : Env :=
  { envOk with openErr := fun _ => some .enoent }

/-- Like `envOk` except every `creat` fails with `EACCES`. -/
def envNoCreat : Env :=
  { envOk with creatErr := fun _ => some .eacces }

/-- Like `envOk` except every `chdir` fails with `ENOENT` (the target
directory does not exist). -/
def envBadDir : Env :=
  { envOk with chdirErr := fun _ => some .enoent }

/-- The command line `a | b`: the parser delivers the stage list in
reverse pipeline order, rightmost stage `b` first. -/
def cmdAB : Command := { pgm := [["b"], ["a"]], rstdin := none, rstdout := none, background := false }

/-- The command line `a | b | c` (delivered reversed, `c` first). -/
def cmdABC : Command :=
  { pgm := [["c"], ["b"], ["a"]], rstdin := none, rstdout := none, background := false }

/-- A single-stage foreground command `ls`. -/
def cmdLs : Command := { pgm := [["ls"]], rstdin := none, rstdout := none, background := false }

/-- A single-stage foreground command `nosuch > out.txt` whose program
does not exist and whose output is redirected. -/
def cmdNosuchRedir : Command :=
  { pgm := [["nosuch"]], rstdin := none, rstdout := some "out.txt", background := false }

/-- A single-stage `cd` with one argument. -/
def cdCmd (path : String) : Command :=
  { pgm := [["cd", path]], rstdin := none, rstdout := none, background := false }

/-- A single-stage `cd` with no argument (the argument vector holds only
the program name; `command[1]` is the null sentinel). -/
def cdBare : Command :=
  { pgm := [["cd"]], rstdin := none, rstdout := none, background := false }

/-! ### Helper notions for the loop invariants -/

/-- The consecutive pids `b, b+1, …, b+n-1` handed out by successive
forks. -/
def pidSeq (b : Nat) : Nat → List Nat
  | 0 => []
  | n + 1 => b :: pidSeq (b + 1) n

/-- The `command_pids` entries `(a, b), (a+1, b+1), …` written by `n`
consecutive fork iterations starting at index `a` with pid `b`. -/
def consecPids (a b : Nat) : Nat → List (Nat × Nat)
  | 0 => []
  | n + 1 => (a, b) :: consecPids (a + 1) (b + 1) n

/-- What the fork branch guarantees about every child it creates: the
interrupt signal is set to ignored, the error stream is the untouched
fd 2, and the `execvp` outcome, messages and exit status are those of
`handle_command` (in particular `exit(0)` after a failed `execvp`). -/
def childWellFormed (env : Env) (c : ChildSpec) : Prop :=
  c.sigint = .ign ∧ c.stderrFd = STDERR_FILENO ∧
  c.prog = c.argv.headD "" ∧
  c.execErr = (handle_command env c.argv).fst ∧
  c.stderrMsgs = (handle_command env c.argv).snd ∧
  c.exitStatus = (match (handle_command env c.argv).fst with
    | none => none
    | some _ => some 0)

/-! ### Lemmas about the pid bookkeeping -/

theorem lookupPid_consec :
    ∀ (n a b i : Nat), i < n →
      lookupPid (consecPids a b n) (a + i) = some (b + i) := by
  intro n
  induction n with
  | zero => intro a b i h; exact absurd h (Nat.not_lt_zero i)
  | succ n ih =>
    intro a b i h
    cases i with
    | zero => simp [consecPids, lookupPid]
    | succ j =>
      have hj : j < n := Nat.lt_of_succ_lt_succ h
      have hne : ¬ a = a + (j + 1) := by omega
      have h1 : a + (j + 1) = (a + 1) + j := by omega
      have h2 : b + (j + 1) = (b + 1) + j := by omega
      simp only [consecPids, lookupPid, if_neg hne]
      rw [h1, h2]
      exact ih (a + 1) (b + 1) j hj

theorem pidSeq_eq_range_map :
    ∀ (n b : Nat), pidSeq b n = (List.range n).map (b + ·) := by
  intro n
  induction n with
  | zero => intro b; simp [pidSeq]
  | succ n ih =>
    intro b
    rw [List.range_succ_eq_map]
    have hfun : (fun i => b + Nat.succ i) = (fun i => (b + 1) + i) :=
      funext (fun i => by omega)
    simp only [pidSeq, List.map_cons, List.map_map, Function.comp_def, hfun]
    rw [ih (b + 1)]
    simp

theorem KillChildrenOnSignal_consec (n b : Nat) :
    KillChildrenOnSignal (consecPids 0 b n) n
      = (pidSeq b n).map (fun p => (some p, Signal.sigkill)) := by
  rw [KillChildrenOnSignal, pidSeq_eq_range_map, List.map_map]
  refine List.map_congr_left (fun i hi => ?_)
  have hlt : i < n := List.mem_range.mp hi
  have := lookupPid_consec n 0 b i hlt
  simp only [Nat.zero_add] at this
  simp [Function.comp_def, this]

/-! ### Invariants of the stage loop -/

/-- On a run where every stage is an external program and every `pipe`
call succeeds, the loop forks one child per stage in delivered order,
hands out consecutive pids, and records them at consecutive indices of
`command_pids`; `command_counter` is never changed and the interpreter
never exits. -/
theorem runLoop_external (env : Env) (hpipe : ∀ k, env.pipeFails k = false) :
    ∀ (l : List Stage),
      (∀ c ∈ l, progOf c ≠ "exit" ∧ progOf c ≠ "cd") →
      ∀ s : LoopState, s.exited = none → s.spawned.length = s.idx →
        (runLoop env l s).exited = none ∧
        (runLoop env l s).command_counter = s.command_counter ∧
        (runLoop env l s).idx = s.idx + l.length ∧
        (runLoop env l s).spawned.length = (runLoop env l s).idx ∧
        (runLoop env l s).pids
          = s.pids ++ consecPids s.idx (1000 + s.idx) l.length ∧
        (runLoop env l s).spawned.map ChildSpec.pid
          = s.spawned.map ChildSpec.pid ++ pidSeq (1000 + s.idx) l.length ∧
        (runLoop env l s).spawned.map ChildSpec.prog
          = s.spawned.map ChildSpec.prog ++ l.map progOf := by
  intro l
  induction l with
  | nil =>
    intro _ s hex hlen
    simp [runLoop, consecPids, pidSeq, hex, hlen]
  | cons command rest ih =>
    intro hl s hex hlen
    rcases List.forall_mem_cons.mp hl with ⟨⟨hx, hc⟩, htail⟩
    have key : ∀ (s1 : LoopState) (pipeW : Option Nat),
        s1.exited = s.exited → s1.spawned = s.spawned → s1.pids = s.pids →
        s1.idx = s.idx → s1.command_counter = s.command_counter →
        s1.cwd = s.cwd →
        (runLoop env rest (forkStep env command pipeW s1)).exited = none ∧
        (runLoop env rest (forkStep env command pipeW s1)).command_counter
          = s.command_counter ∧
        (runLoop env rest (forkStep env command pipeW s1)).idx
          = s.idx + (command :: rest).length ∧
        (runLoop env rest (forkStep env command pipeW s1)).spawned.length
          = (runLoop env rest (forkStep env command pipeW s1)).idx ∧
        (runLoop env rest (forkStep env command pipeW s1)).pids
          = s.pids ++ consecPids s.idx (1000 + s.idx) (command :: rest).length ∧
        (runLoop env rest (forkStep env command pipeW s1)).spawned.map
            ChildSpec.pid
          = s.spawned.map ChildSpec.pid
            ++ pidSeq (1000 + s.idx) (command :: rest).length ∧
        (runLoop env rest (forkStep env command pipeW s1)).spawned.map
            ChildSpec.prog
          = s.spawned.map ChildSpec.prog ++ (command :: rest).map progOf := by
      intro s1 pipeW h1 h2 h3 h4 h5 h6
      have s2ex : (forkStep env command pipeW s1).exited = none := by
        simp [forkStep, h1, hex]
      have s2len : (forkStep env command pipeW s1).spawned.length
          = (forkStep env command pipeW s1).idx := by
        simp [forkStep, h2, h4, hlen]
      obtain ⟨q1, q2, q3, q4, q5, q6, q7⟩ := ih htail _ s2ex s2len
      refine ⟨q1, ?_, ?_, q4, ?_, ?_, ?_⟩
      · rw [q2]; simp [forkStep, h5]
      · rw [q3]; simp only [forkStep, h4, List.length_cons]; omega
      · rw [q5]
        simp [forkStep, h2, h3, h4, hlen, consecPids, Nat.add_assoc]
      · rw [q6]
        simp [forkStep, childRun, h2, h4, hlen, pidSeq, Nat.add_assoc]
      · rw [q7]
        simp [forkStep, childRun, h2]
    cases rest with
    | nil =>
      have hstep :
          runLoop env [command] s
            = runLoop env []
                (forkStep env command none { s with child_in := s.last_in }) := by
        simp only [runLoop, List.isEmpty_nil, Bool.not_true, Bool.false_and,
          Bool.false_eq_true, if_false, if_true, if_neg hx, if_neg hc]
      rw [hstep]
      exact key { s with child_in := s.last_in } none rfl rfl rfl rfl rfl rfl
    | cons r rs =>
      have hstep :
          runLoop env (command :: r :: rs) s
            = runLoop env (r :: rs)
                (forkStep env command (some (s.nextFd + 1))
                  { s with child_in := s.nextFd, nextFd := s.nextFd + 2,
                           pipeCount := s.pipeCount + 1 }) := by
        conv_lhs => rw [runLoop]
        simp only [List.isEmpty_cons, Bool.not_false, Bool.true_and,
          hpipe s.pipeCount, Bool.false_eq_true, if_false, if_neg hx, if_neg hc]
      rw [hstep]
      exact key { s with child_in := s.nextFd, nextFd := s.nextFd + 2,
                         pipeCount := s.pipeCount + 1 }
        (some (s.nextFd + 1)) rfl rfl rfl rfl rfl rfl

/-- A child built by `childRun` satisfies `childWellFormed`. -/
theorem childRun_wf (env : Env) (command : Stage) (pid child_in child_out : Nat)
    (cwd : String) :
    childWellFormed env (childRun env command pid child_in child_out cwd) :=
  ⟨rfl, rfl, rfl, rfl, rfl, rfl⟩

/-- The `cd` branch leaves `exited` unchanged (both `chdir` outcomes). -/
theorem cdStep_exited (env : Env) (command : Stage) (s1 : LoopState) :
    (cdStep env command s1).exited = s1.exited := by
  simp only [cdStep]; split <;> rfl

/-- The `cd` branch forks no child. -/
theorem cdStep_spawned (env : Env) (command : Stage) (s1 : LoopState) :
    (cdStep env command s1).spawned = s1.spawned := by
  simp only [cdStep]; split <;> rfl

/-- If no stage of `l` is the `exit` built-in, the loop never calls
`exit(0)`: the interpreter does not terminate. -/
theorem runLoop_no_exit (env : Env) :
    ∀ (l : List Stage), (∀ c ∈ l, progOf c ≠ "exit") →
      ∀ s : LoopState, s.exited = none → (runLoop env l s).exited = none := by
  intro l
  induction l with
  | nil => intro _ s hex; simpa [runLoop] using hex
  | cons command rest ih =>
    intro hl s hex
    rcases List.forall_mem_cons.mp hl with ⟨hx, htail⟩
    cases rest with
    | nil =>
      rw [runLoop]
      simp only [List.isEmpty_nil, Bool.not_true, Bool.false_and,
        Bool.false_eq_true, if_false, if_true, if_neg hx]
      by_cases hcd : progOf command = "cd"
      · rw [if_pos hcd]
        apply ih htail
        simp [cdStep_exited, hex]
      · rw [if_neg hcd]
        apply ih htail
        simp [forkStep, hex]
    | cons r rs =>
      rw [runLoop]
      cases hp : env.pipeFails s.pipeCount with
      | true =>
        simp only [List.isEmpty_cons, Bool.not_false, Bool.true_and, hp]
        simp [breakPipeState, hex]
      | false =>
        simp only [List.isEmpty_cons, Bool.not_false, Bool.true_and, hp,
          Bool.false_eq_true, if_false, if_neg hx]
        by_cases hcd : progOf command = "cd"
        · rw [if_pos hcd]
          apply ih htail
          simp [cdStep_exited, hex]
        · rw [if_neg hcd]
          apply ih htail
          simp [forkStep, hex]

/-- A membership splitter for the fork branch. -/
theorem forkStep_spawned_mem (env : Env) (command : Stage) (pipeW : Option Nat)
    (s1 : LoopState) (c : ChildSpec)
    (h : c ∈ (forkStep env command pipeW s1).spawned) :
    c ∈ s1.spawned ∨ childWellFormed env c := by
  have h2 : c ∈ s1.spawned ∨
      c = childRun env command (1000 + s1.spawned.length) s1.child_in
        s1.child_out s1.cwd := by
    simpa [forkStep] using h
  rcases h2 with h2 | h2
  · left; exact h2
  · right; rw [h2]; exact childRun_wf env command _ _ _ _

/-- Every child the loop adds to `spawned` comes out of the fork branch,
hence satisfies `childWellFormed`. -/
theorem runLoop_spawned_wf (env : Env) :
    ∀ (l : List Stage) (s : LoopState) (c : ChildSpec),
      c ∈ (runLoop env l s).spawned →
      c ∈ s.spawned ∨ childWellFormed env c := by
  intro l
  induction l with
  | nil => intro s c hmem; left; simpa [runLoop] using hmem
  | cons command rest ih =>
    intro s c hmem
    cases rest with
    | nil =>
      rw [runLoop] at hmem
      simp only [List.isEmpty_nil, Bool.not_true, Bool.false_and,
        Bool.false_eq_true, if_false, if_true] at hmem
      by_cases hx2 : progOf command = "exit"
      · rw [if_pos hx2] at hmem
        left; exact hmem
      · rw [if_neg hx2] at hmem
        by_cases hcd2 : progOf command = "cd"
        · rw [if_pos hcd2] at hmem
          rcases ih _ c hmem with h | h
          · left; simpa [cdStep_spawned] using h
          · right; exact h
        · rw [if_neg hcd2] at hmem
          rcases ih _ c hmem with h | h
          · rcases forkStep_spawned_mem env command _ _ c h with h2 | h2
            · left; exact h2
            · right; exact h2
          · right; exact h
    | cons r rs =>
      rw [runLoop] at hmem
      cases hp : env.pipeFails s.pipeCount with
      | true =>
        simp only [List.isEmpty_cons, Bool.not_false, Bool.true_and, hp,
          if_true] at hmem
        left
        simpa [breakPipeState] using hmem
      | false =>
        simp only [List.isEmpty_cons, Bool.not_false, Bool.true_and, hp,
          Bool.false_eq_true, if_false] at hmem
        by_cases hx2 : progOf command = "exit"
        · rw [if_pos hx2] at hmem
          left; exact hmem
        · rw [if_neg hx2] at hmem
          by_cases hcd2 : progOf command = "cd"
          · rw [if_pos hcd2] at hmem
            rcases ih _ c hmem with h | h
            · left; simpa [cdStep_spawned] using h
            · right; exact h
          · rw [if_neg hcd2] at hmem
            rcases ih _ c hmem with h | h
            · rcases forkStep_spawned_mem env command _ _ c h with h2 | h2
              · left; exact h2
              · right; exact h2
            · right; exact h

/-- A fork-branch child inherits the loop's working directory. -/
theorem forkStep_spawned_cwd (env : Env) (command : Stage) (pipeW : Option Nat)
    (s1 : LoopState) (c : ChildSpec)
    (h : c ∈ (forkStep env command pipeW s1).spawned) :
    c ∈ s1.spawned ∨ c.cwd = s1.cwd := by
  have h2 : c ∈ s1.spawned ∨
      c = childRun env command (1000 + s1.spawned.length) s1.child_in
        s1.child_out s1.cwd := by
    simpa [forkStep] using h
  rcases h2 with h2 | h2
  · left; exact h2
  · right; rw [h2]; rfl

/-- If no stage of `l` is the `cd` built-in, the loop leaves the working
directory unchanged and every child it forks inherits it. -/
theorem runLoop_cwd_nocd (env : Env) :
    ∀ (l : List Stage), (∀ c ∈ l, progOf c ≠ "cd") →
      ∀ s : LoopState,
        (runLoop env l s).cwd = s.cwd ∧
        ∀ c ∈ (runLoop env l s).spawned, c ∈ s.spawned ∨ c.cwd = s.cwd := by
  intro l
  induction l with
  | nil =>
    intro _ s
    exact ⟨by simp [runLoop], fun c h => Or.inl (by simpa [runLoop] using h)⟩
  | cons command rest ih =>
    intro hl s
    rcases List.forall_mem_cons.mp hl with ⟨hcd, htail⟩
    cases rest with
    | nil =>
      rw [runLoop]
      simp only [List.isEmpty_nil, Bool.not_true, Bool.false_and,
        Bool.false_eq_true, if_false, if_true]
      by_cases hx2 : progOf command = "exit"
      · rw [if_pos hx2]
        exact ⟨rfl, fun c h => Or.inl h⟩
      · rw [if_neg hx2, if_neg hcd]
        obtain ⟨hq, hm⟩ :=
          ih htail (forkStep env command none { s with child_in := s.last_in })
        refine ⟨by rw [hq]; rfl, fun c h => ?_⟩
        rcases hm c h with h2 | h2
        · rcases forkStep_spawned_cwd env command _ _ c h2 with h3 | h3
          · left; exact h3
          · right; exact h3
        · right; exact h2
    | cons r rs =>
      rw [runLoop]
      cases hp : env.pipeFails s.pipeCount with
      | true =>
        simp only [List.isEmpty_cons, Bool.not_false, Bool.true_and, hp, if_true]
        exact ⟨rfl, fun c h => Or.inl (by simpa [breakPipeState] using h)⟩
      | false =>
        simp only [List.isEmpty_cons, Bool.not_false, Bool.true_and, hp,
          Bool.false_eq_true, if_false]
        by_cases hx2 : progOf command = "exit"
        · rw [if_pos hx2]
          exact ⟨rfl, fun c h => Or.inl h⟩
        · rw [if_neg hx2, if_neg hcd]
          obtain ⟨hq, hm⟩ :=
            ih htail (forkStep env command (some (s.nextFd + 1))
              { s with child_in := s.nextFd, nextFd := s.nextFd + 2,
                       pipeCount := s.pipeCount + 1 })
          refine ⟨by rw [hq]; rfl, fun c h => ?_⟩
          rcases hm c h with h2 | h2
          · rcases forkStep_spawned_cwd env command _ _ c h2 with h3 | h3
            · left; exact h3
            · right; exact h3
          · right; exact h2

/-- The foreground wait loop, driven by the recorded count, waits on
exactly the recorded pids when the array was filled consecutively. -/
theorem waited_consec (n b : Nat) :
    (List.range n).map (lookupPid (consecPids 0 b n)) = (pidSeq b n).map some := by
  rw [pidSeq_eq_range_map, List.map_map]
  refine List.map_congr_left (fun i hi => ?_)
  have hlt := List.mem_range.mp hi
  have := lookupPid_consec n 0 b i hlt
  simpa using this

/-- If no stage is the `exit` built-in, one invocation never terminates
the interpreter process (completion phase). -/
theorem RunCommandFinish_shellExited_none (env : Env)
    (sigint0 sigchld0 : Disposition) (cmd : Command) (s0 : LoopState)
    (hno : ∀ c ∈ cmd.pgm, progOf c ≠ "exit") (h0 : s0.exited = none) :
    (RunCommandFinish env sigint0 sigchld0 cmd s0).shellExited = none := by
  have h := runLoop_no_exit env cmd.pgm hno s0 h0
  simp only [RunCommandFinish, h]
  by_cases hb : cmd.background <;> simp [hb]

/-- Completion-phase summary of an all-external, all-pipes-succeed
foreground run started from a fresh loop state. -/
theorem RunCommandFinish_external (env : Env) (sigint0 sigchld0 : Disposition)
    (cmd : Command) (s0 : LoopState)
    (hpipe : ∀ k, env.pipeFails k = false)
    (hext : ∀ c ∈ cmd.pgm, progOf c ≠ "exit" ∧ progOf c ≠ "cd")
    (hbg : cmd.background = false)
    (h1 : s0.exited = none) (h2 : s0.spawned = []) (h3 : s0.pids = [])
    (h4 : s0.idx = 0) (h5 : s0.command_counter = cmd.pgm.length) :
    (RunCommandFinish env sigint0 sigchld0 cmd s0).published
        = some (consecPids 0 1000 cmd.pgm.length, cmd.pgm.length) ∧
    (RunCommandFinish env sigint0 sigchld0 cmd s0).spawned.map ChildSpec.pid
        = pidSeq 1000 cmd.pgm.length ∧
    (RunCommandFinish env sigint0 sigchld0 cmd s0).spawned.map ChildSpec.prog
        = cmd.pgm.map progOf ∧
    (RunCommandFinish env sigint0 sigchld0 cmd s0).shellExited = none ∧
    (RunCommandFinish env sigint0 sigchld0 cmd s0).waited
        = (pidSeq 1000 cmd.pgm.length).map some ∧
    (RunCommandFinish env sigint0 sigchld0 cmd s0).spawned.length
        = cmd.pgm.length := by
  have hlen0 : s0.spawned.length = s0.idx := by rw [h2, h4]; rfl
  obtain ⟨q1, q2, q3, q4, q5, q6, q7⟩ :=
    runLoop_external env hpipe cmd.pgm hext s0 h1 hlen0
  rw [h3, h4] at q5
  rw [h2, h4] at q6
  rw [h2] at q7
  rw [h5] at q2
  rw [h4] at q3
  simp only [List.nil_append, List.map_nil, Nat.add_zero, Nat.zero_add] at q5 q6 q7 q3
  simp only [RunCommandFinish, q1, hbg]
  refine ⟨?_, ?_, ?_, ?_, ?_, ?_⟩
  · simp [q5, q2]
  · simp [q6]
  · simp [q7]
  · simp
  · simp only [q2, q5]
    exact waited_consec cmd.pgm.length 1000
  · simp [q4, q3]

/-- Whole-invocation summary of an all-external, all-calls-succeed
foreground run: the job record holds the `K = cmd.pgm.length`
consecutively recorded pids, one child per stage is forked in delivered
order, all recorded pids are waited on, and the interpreter survives. -/
theorem RunCommand_external_summary (env : Env) (cwd0 : String) (cmd : Command)
    (hopen : ∀ p, env.openErr p = none) (hcreat : ∀ p, env.creatErr p = none)
    (hpipe : ∀ k, env.pipeFails k = false)
    (hext : ∀ c ∈ cmd.pgm, progOf c ≠ "exit" ∧ progOf c ≠ "cd")
    (hbg : cmd.background = false) :
    (RunCommand env cwd0 .ign .ign cmd).published
        = some (consecPids 0 1000 cmd.pgm.length, cmd.pgm.length) ∧
    (RunCommand env cwd0 .ign .ign cmd).spawned.map ChildSpec.pid
        = pidSeq 1000 cmd.pgm.length ∧
    (RunCommand env cwd0 .ign .ign cmd).spawned.map ChildSpec.prog
        = cmd.pgm.map progOf ∧
    (RunCommand env cwd0 .ign .ign cmd).shellExited = none ∧
    (RunCommand env cwd0 .ign .ign cmd).waited
        = (pidSeq 1000 cmd.pgm.length).map some ∧
    (RunCommand env cwd0 .ign .ign cmd).spawned.length = cmd.pgm.length := by
  cases hin : cmd.rstdin with
  | none =>
    cases hout : cmd.rstdout with
    | none =>
      simp only [RunCommand, RunCommandAfterIn, hin, hout]
      exact RunCommandFinish_external env _ _ cmd _ hpipe hext hbg rfl rfl rfl
        rfl rfl
    | some path =>
      simp only [RunCommand, RunCommandAfterIn, hin, hout, hcreat path]
      exact RunCommandFinish_external env _ _ cmd _ hpipe hext hbg rfl rfl rfl
        rfl rfl
  | some path =>
    cases hout : cmd.rstdout with
    | none =>
      simp only [RunCommand, RunCommandAfterIn, hin, hout, hopen path]
      exact RunCommandFinish_external env _ _ cmd _ hpipe hext hbg rfl rfl rfl
        rfl rfl
    | some path2 =>
      simp only [RunCommand, RunCommandAfterIn, hin, hout, hopen path,
        hcreat path2]
      exact RunCommandFinish_external env _ _ cmd _ hpipe hext hbg rfl rfl rfl
        rfl rfl

/-- The completion phase never adds or removes children. -/
theorem RunCommandFinish_spawned (env : Env) (sigint0 sigchld0 : Disposition)
    (cmd : Command) (s0 : LoopState) :
    (RunCommandFinish env sigint0 sigchld0 cmd s0).spawned
      = (runLoop env cmd.pgm s0).spawned := by
  simp only [RunCommandFinish]
  split
  · rfl
  · by_cases hb : cmd.background <;> simp [hb]

/-- Case scaffold: every child of one invocation comes out of the stage
loop started from a fresh state whose working directory is `cwd0`. -/
theorem RunCommand_spawned_cases (env : Env) (cwd0 : String)
    (sigint0 sigchld0 : Disposition) (cmd : Command) (P : ChildSpec → Prop)
    (hP : ∀ s0 : LoopState, s0.spawned = [] → s0.cwd = cwd0 →
      ∀ c ∈ (runLoop env cmd.pgm s0).spawned, P c) :
    ∀ c ∈ (RunCommand env cwd0 sigint0 sigchld0 cmd).spawned, P c := by
  intro c hc
  cases hin : cmd.rstdin with
  | none =>
    cases hout : cmd.rstdout with
    | none =>
      rw [RunCommand] at hc
      simp only [hin] at hc
      rw [RunCommandAfterIn] at hc
      simp only [hout] at hc
      rw [RunCommandFinish_spawned] at hc
      exact hP _ rfl rfl c hc
    | some path =>
      rw [RunCommand] at hc
      simp only [hin] at hc
      rw [RunCommandAfterIn] at hc
      simp only [hout] at hc
      cases hcr : env.creatErr path with
      | some e =>
        simp only [hcr] at hc
        simp at hc
      | none =>
        simp only [hcr] at hc
        rw [RunCommandFinish_spawned] at hc
        exact hP _ rfl rfl c hc
  | some path =>
    rw [RunCommand] at hc
    simp only [hin] at hc
    cases hop : env.openErr path with
    | some e =>
      simp only [hop] at hc
      simp at hc
    | none =>
      simp only [hop] at hc
      rw [RunCommandAfterIn] at hc
      cases hout : cmd.rstdout with
      | none =>
        simp only [hout] at hc
        rw [RunCommandFinish_spawned] at hc
        exact hP _ rfl rfl c hc
      | some path2 =>
        simp only [hout] at hc
        cases hcr : env.creatErr path2 with
        | some e =>
          simp only [hcr] at hc
          simp at hc
        | none =>
          simp only [hcr] at hc
          rw [RunCommandFinish_spawned] at hc
          exact hP _ rfl rfl c hc

/-- Every child of one invocation satisfies `childWellFormed`. -/
theorem RunCommand_spawned_wf (env : Env) (cwd0 : String)
    (sigint0 sigchld0 : Disposition) (cmd : Command) :
    ∀ c ∈ (RunCommand env cwd0 sigint0 sigchld0 cmd).spawned,
      childWellFormed env c := by
  refine RunCommand_spawned_cases env cwd0 sigint0 sigchld0 cmd _ ?_
  intro s0 hsp _ c hc
  rcases runLoop_spawned_wf env cmd.pgm s0 c hc with h | h
  · rw [hsp] at h; cases h
  · exact h

/-- When no stage is `cd`, every child of one invocation inherits the
working directory the invocation started with. -/
theorem RunCommand_spawned_cwd (env : Env) (cwd0 : String)
    (sigint0 sigchld0 : Disposition) (cmd : Command)
    (hcd : ∀ st ∈ cmd.pgm, progOf st ≠ "cd") :
    ∀ c ∈ (RunCommand env cwd0 sigint0 sigchld0 cmd).spawned, c.cwd = cwd0 := by
  refine RunCommand_spawned_cases env cwd0 sigint0 sigchld0 cmd _ ?_
  intro s0 hsp hcw c hc
  rcases (runLoop_cwd_nocd env cmd.pgm hcd s0).2 c hc with h | h
  · rw [hsp] at h; cases h
  · rw [h, hcw]

/-- The completion phase of a background command publishes nothing,
waits on nothing, and leaves the signal dispositions alone. -/
theorem RunCommandFinish_background (env : Env) (sigint0 sigchld0 : Disposition)
    (cmd : Command) (s0 : LoopState) (hbg : cmd.background = true) :
    (RunCommandFinish env sigint0 sigchld0 cmd s0).published = none ∧
    (RunCommandFinish env sigint0 sigchld0 cmd s0).waited = [] ∧
    (RunCommandFinish env sigint0 sigchld0 cmd s0).sigchldFinal = sigchld0 ∧
    (RunCommandFinish env sigint0 sigchld0 cmd s0).sigintFinal = sigint0 := by
  simp only [RunCommandFinish]
  split
  · exact ⟨rfl, rfl, rfl, rfl⟩
  · simp [hbg]

/-- Whole-invocation background frame: nothing is published to the job
record, nothing is waited on, and the dispositions are untouched. -/
theorem RunCommand_background (env : Env) (cwd0 : String)
    (sigint0 sigchld0 : Disposition) (cmd : Command)
    (hbg : cmd.background = true) :
    (RunCommand env cwd0 sigint0 sigchld0 cmd).published = none ∧
    (RunCommand env cwd0 sigint0 sigchld0 cmd).waited = [] ∧
    (RunCommand env cwd0 sigint0 sigchld0 cmd).sigchldFinal = sigchld0 ∧
    (RunCommand env cwd0 sigint0 sigchld0 cmd).sigintFinal = sigint0 := by
  cases hin : cmd.rstdin with
  | none =>
    cases hout : cmd.rstdout with
    | none =>
      simp only [RunCommand, RunCommandAfterIn, hin, hout]
      exact RunCommandFinish_background env _ _ cmd _ hbg
    | some path =>
      cases hcr : env.creatErr path with
      | some e => simp [RunCommand, RunCommandAfterIn, hin, hout, hcr]
      | none =>
        simp only [RunCommand, RunCommandAfterIn, hin, hout, hcr]
        exact RunCommandFinish_background env _ _ cmd _ hbg
  | some path =>
    cases hop : env.openErr path with
    | some e => simp [RunCommand, hin, hop]
    | none =>
      cases hout : cmd.rstdout with
      | none =>
        simp only [RunCommand, RunCommandAfterIn, hin, hout, hop]
        exact RunCommandFinish_background env _ _ cmd _ hbg
      | some path2 =>
        cases hcr : env.creatErr path2 with
        | some e => simp [RunCommand, RunCommandAfterIn, hin, hout, hop, hcr]
        | none =>
          simp only [RunCommand, RunCommandAfterIn, hin, hout, hop, hcr]
          exact RunCommandFinish_background env _ _ cmd _ hbg

/-- Middle-phase version of: no `exit` stage means the interpreter
process survives the invocation. -/
theorem RunCommandAfterIn_shellExited_none (env : Env) (cwd0 : String)
    (sigint0 sigchld0 : Disposition) (cmd : Command) (cc last_in fdNext : Nat)
    (hno : ∀ c ∈ cmd.pgm, progOf c ≠ "exit") :
    (RunCommandAfterIn env cwd0 sigint0 sigchld0 cmd cc last_in
        fdNext).shellExited = none := by
  cases hout : cmd.rstdout with
  | none =>
    simp only [RunCommandAfterIn, hout]
    exact RunCommandFinish_shellExited_none env _ _ cmd _ hno rfl
  | some path =>
    cases hcr : env.creatErr path with
    | some e => simp [RunCommandAfterIn, hout, hcr]
    | none =>
      simp only [RunCommandAfterIn, hout, hcr]
      exact RunCommandFinish_shellExited_none env _ _ cmd _ hno rfl

/-- No `exit` stage means the interpreter process survives the
invocation, whatever the environment does. -/
theorem RunCommand_shellExited_none (env : Env) (cwd0 : String)
    (sigint0 sigchld0 : Disposition) (cmd : Command)
    (hno : ∀ c ∈ cmd.pgm, progOf c ≠ "exit") :
    (RunCommand env cwd0 sigint0 sigchld0 cmd).shellExited = none := by
  cases hin : cmd.rstdin with
  | none =>
    simp only [RunCommand, hin]
    exact RunCommandAfterIn_shellExited_none env cwd0 _ _ cmd _ _ _ hno
  | some path =>
    cases hop : env.openErr path with
    | some e => simp [RunCommand, hin, hop]
    | none =>
      simp only [RunCommand, hin, hop]
      exact RunCommandAfterIn_shellExited_none env cwd0 _ _ cmd _ _ _ hno

/-! ### Claim theorems -/

/-- C1: for every foreground pipeline whose stages are all external
programs and whose redirections and pipe creations succeed, the
invocation publishes to the job record exactly the K recorded pids with
the count K; the installed `KillChildrenOnSignal` handler — iterating
over exactly the recorded count — sends the forceful kill signal to
every one of the K recorded pids; the wait loop covers exactly those K
recorded pids; and the interpreter process itself survives, returning to
the prompt. -/
theorem C1_interrupt_kills_every_recorded_child (env : Env) (cwd0 : String)
    (cmd : Command)
    (hopen : ∀ p, env.openErr p = none) (hcreat : ∀ p, env.creatErr p = none)
    (hpipe : ∀ k, env.pipeFails k = false)
    (hext : ∀ c ∈ cmd.pgm, progOf c ≠ "exit" ∧ progOf c ≠ "cd")
    (hbg : cmd.background = false) :
    ∃ children : List (Nat × Nat),
      (RunCommand env cwd0 .ign .ign cmd).published
          = some (children, cmd.pgm.length) ∧
      (RunCommand env cwd0 .ign .ign cmd).spawned.length = cmd.pgm.length ∧
      KillChildrenOnSignal children cmd.pgm.length
        = (RunCommand env cwd0 .ign .ign cmd).spawned.map
            (fun c => (some c.pid, Signal.sigkill)) ∧
      (RunCommand env cwd0 .ign .ign cmd).waited
        = (RunCommand env cwd0 .ign .ign cmd).spawned.map
            (fun c => some c.pid) ∧
      (RunCommand env cwd0 .ign .ign cmd).shellExited = none := by
  obtain ⟨p1, p2, p3, p4, p5, p6⟩ :=
    RunCommand_external_summary env cwd0 cmd hopen hcreat hpipe hext hbg
  refine ⟨consecPids 0 1000 cmd.pgm.length, p1, p6, ?_, ?_, p4⟩
  · rw [KillChildrenOnSignal_consec, ← p2, List.map_map]
    rfl
  · rw [p5, ← p2, List.map_map]
    rfl

/-- Witness for C1 at the concrete two-stage foreground pipeline
`a | b`. -/
theorem C1_witness :
    ∃ children : List (Nat × Nat),
      (RunCommand envOk "/" .ign .ign cmdAB).published
          = some (children, cmdAB.pgm.length) ∧
      (RunCommand envOk "/" .ign .ign cmdAB).spawned.length
          = cmdAB.pgm.length ∧
      KillChildrenOnSignal children cmdAB.pgm.length
        = (RunCommand envOk "/" .ign .ign cmdAB).spawned.map
            (fun c => (some c.pid, Signal.sigkill)) ∧
      (RunCommand envOk "/" .ign .ign cmdAB).waited
        = (RunCommand envOk "/" .ign .ign cmdAB).spawned.map
            (fun c => some c.pid) ∧
      (RunCommand envOk "/" .ign .ign cmdAB).shellExited = none :=
  C1_interrupt_kills_every_recorded_child envOk "/" cmdAB (fun _ => rfl)
    (fun _ => rfl) (fun _ => rfl) (by decide) rfl

/-- C4: a pipeline whose `input_path` fails to open with `ENOENT` prints
the `No such file` diagnostic, spawns zero children, publishes nothing,
waits on nothing, closes no descriptor (none was opened by the failed
call), and the interpreter survives to the next prompt. -/
theorem C4_missing_input_file_spawns_nothing (env : Env) (cwd0 : String)
    (sigint0 sigchld0 : Disposition) (cmd : Command) (path : String)
    (hin : cmd.rstdin = some path)
    (hop : env.openErr path = some Errno.enoent) :
    (RunCommand env cwd0 sigint0 sigchld0 cmd).msgs = ["No such file"] ∧
    (RunCommand env cwd0 sigint0 sigchld0 cmd).spawned = [] ∧
    (RunCommand env cwd0 sigint0 sigchld0 cmd).published = none ∧
    (RunCommand env cwd0 sigint0 sigchld0 cmd).waited = [] ∧
    (RunCommand env cwd0 sigint0 sigchld0 cmd).closedFds = [] ∧
    (RunCommand env cwd0 sigint0 sigchld0 cmd).shellExited = none := by
  simp [RunCommand, hin, hop, handle_file_error]

/-- Witness for C4: `ls < in.txt` when `in.txt` does not exist. -/
theorem C4_witness :
    (RunCommand envNoFile "/" .ign .ign
        { cmdLs with rstdin := some "in.txt" }).msgs = ["No such file"] ∧
    (RunCommand envNoFile "/" .ign .ign
        { cmdLs with rstdin := some "in.txt" }).spawned = [] ∧
    (RunCommand envNoFile "/" .ign .ign
        { cmdLs with rstdin := some "in.txt" }).published = none ∧
    (RunCommand envNoFile "/" .ign .ign
        { cmdLs with rstdin := some "in.txt" }).waited = [] ∧
    (RunCommand envNoFile "/" .ign .ign
        { cmdLs with rstdin := some "in.txt" }).closedFds = [] ∧
    (RunCommand envNoFile "/" .ign .ign
        { cmdLs with rstdin := some "in.txt" }).shellExited = none :=
  C4_missing_input_file_spawns_nothing envNoFile "/" .ign .ign
    { cmdLs with rstdin := some "in.txt" } "in.txt" rfl rfl

/-- C5 counterexample: in the concrete run of the single-stage pipeline
`ls`, the forked child sets the interrupt signal to the ignored
disposition — not the default one — before installing descriptors and
replacing the process image (`signal(SIGINT, SIG_IGN)` in the child). -/
theorem C5_counterexample :
    (RunCommand envOk "/" .ign .ign cmdLs).spawned.map (fun c => c.sigint)
        = [Disposition.ign] ∧
    Disposition.ign ≠ Disposition.dfl :=
  ⟨rfl, by decide⟩

/-- C5 (amended): in every forked child, before installing descriptors
and replacing the process image, the interrupt signal is set to the
ignored disposition (the child is not restored to the default
disposition). -/
theorem C5_child_sets_sigint_ignored (env : Env) (cwd0 : String)
    (sigint0 sigchld0 : Disposition) (cmd : Command) :
    ∀ c ∈ (RunCommand env cwd0 sigint0 sigchld0 cmd).spawned,
      c.sigint = Disposition.ign := by
  intro c hc
  exact (RunCommand_spawned_wf env cwd0 sigint0 sigchld0 cmd c hc).1

/-- Witness for the amended C5 at the child forked for `ls`. -/
theorem C5_witness :
    ((RunCommand envOk "/" .ign .ign cmdLs).spawned.headD
        (childRun envOk ["ls"] 1000 0 1 "/")).sigint = Disposition.ign :=
  C5_child_sets_sigint_ignored envOk "/" .ign .ign cmdLs _ (by decide)

/-- C7: a background command publishes nothing to the job record and
waits on no child (control returns at once); the child-termination
signal was set to ignored in `main` and the invocation leaves it
ignored process-wide (the reap-on-ignore discipline); and when no stage
is the `exit` built-in the interpreter survives to the next prompt. -/
theorem C7_background_publishes_nothing (env : Env) (cwd0 : String)
    (cmd : Command) (hbg : cmd.background = true) :
    (RunCommand env cwd0 (mainInitialSignals .sigint)
        (mainInitialSignals .sigchld) cmd).published = none ∧
    (RunCommand env cwd0 (mainInitialSignals .sigint)
        (mainInitialSignals .sigchld) cmd).waited = [] ∧
    mainInitialSignals Signal.sigchld = Disposition.ign ∧
    (RunCommand env cwd0 (mainInitialSignals .sigint)
        (mainInitialSignals .sigchld) cmd).sigchldFinal = Disposition.ign ∧
    ((∀ c ∈ cmd.pgm, progOf c ≠ "exit") →
      (RunCommand env cwd0 (mainInitialSignals .sigint)
          (mainInitialSignals .sigchld) cmd).shellExited = none) := by
  obtain ⟨b1, b2, b3, b4⟩ := RunCommand_background env cwd0 _ _ cmd hbg
  exact ⟨b1, b2, rfl, b3,
    fun hno => RunCommand_shellExited_none env cwd0 _ _ cmd hno⟩

/-- Witness for C7 at the concrete background pipeline `a | b &`. -/
theorem C7_witness :
    (RunCommand envOk "/" (mainInitialSignals .sigint)
        (mainInitialSignals .sigchld)
        { cmdAB with background := true }).published = none ∧
    (RunCommand envOk "/" (mainInitialSignals .sigint)
        (mainInitialSignals .sigchld)
        { cmdAB with background := true }).waited = [] ∧
    mainInitialSignals Signal.sigchld = Disposition.ign ∧
    (RunCommand envOk "/" (mainInitialSignals .sigint)
        (mainInitialSignals .sigchld)
        { cmdAB with background := true }).sigchldFinal = Disposition.ign ∧
    (RunCommand envOk "/" (mainInitialSignals .sigint)
        (mainInitialSignals .sigchld)
        { cmdAB with background := true }).shellExited = none := by
  obtain ⟨w1, w2, w3, w4, w5⟩ :=
    C7_background_publishes_nothing envOk "/" { cmdAB with background := true }
      rfl
  exact ⟨w1, w2, w3, w4, w5 (by decide)⟩

/-- C8: when the input file opened (descriptor 3) but creating the
output file fails, the command aborts before any fork: no child, no job
record, the file-error diagnostic is printed, the already-opened input
descriptor is closed (no leak), and the interpreter survives. -/
theorem C8_creat_failure_closes_input (env : Env) (cwd0 : String)
    (sigint0 sigchld0 : Disposition) (cmd : Command) (pin pout : String)
    (e : Errno)
    (hin : cmd.rstdin = some pin) (hop : env.openErr pin = none)
    (hout : cmd.rstdout = some pout) (hcr : env.creatErr pout = some e) :
    (RunCommand env cwd0 sigint0 sigchld0 cmd).spawned = [] ∧
    (RunCommand env cwd0 sigint0 sigchld0 cmd).published = none ∧
    (RunCommand env cwd0 sigint0 sigchld0 cmd).msgs = [handle_file_error e] ∧
    (RunCommand env cwd0 sigint0 sigchld0 cmd).closedFds = [3] ∧
    (RunCommand env cwd0 sigint0 sigchld0 cmd).shellExited = none := by
  simp [RunCommand, RunCommandAfterIn, hin, hop, hout, hcr, STDIN_FILENO]

/-- Witness for C8: `ls < in.txt > out.txt` when `out.txt` cannot be
created. -/
theorem C8_witness :
    (RunCommand envNoCreat "/" .ign .ign
        { cmdLs with rstdin := some "in.txt",
                     rstdout := some "out.txt" }).spawned = [] ∧
    (RunCommand envNoCreat "/" .ign .ign
        { cmdLs with rstdin := some "in.txt",
                     rstdout := some "out.txt" }).published = none ∧
    (RunCommand envNoCreat "/" .ign .ign
        { cmdLs with rstdin := some "in.txt",
                     rstdout := some "out.txt" }).msgs
        = [handle_file_error Errno.eacces] ∧
    (RunCommand envNoCreat "/" .ign .ign
        { cmdLs with rstdin := some "in.txt",
                     rstdout := some "out.txt" }).closedFds = [3] ∧
    (RunCommand envNoCreat "/" .ign .ign
        { cmdLs with rstdin := some "in.txt",
                     rstdout := some "out.txt" }).shellExited = none :=
  C8_creat_failure_closes_input envNoCreat "/" .ign .ign
    { cmdLs with rstdin := some "in.txt", rstdout := some "out.txt" }
    "in.txt" "out.txt" Errno.eacces rfl rfl rfl rfl

/-- C10: `cd` with no argument passes the argument vector's null
sentinel straight to `chdir`, whose bad-address failure (`EFAULT`) is
reported as `Invalid argument` by the directory-error handler; no child
is forked, the working directory is unchanged, and the read-eval loop
continues (the interpreter does not exit). -/
theorem C10_bare_cd_invalid_argument (env : Env) (cwd0 : String)
    (sigint0 sigchld0 : Disposition)
    (hf : env.chdirErr none = some Errno.efault) :
    (RunCommand env cwd0 sigint0 sigchld0 cdBare).msgs
        = ["Invalid argument"] ∧
    (RunCommand env cwd0 sigint0 sigchld0 cdBare).spawned = [] ∧
    (RunCommand env cwd0 sigint0 sigchld0 cdBare).shellExited = none ∧
    (RunCommand env cwd0 sigint0 sigchld0 cdBare).finalCwd = cwd0 := by
  simp [RunCommand, RunCommandAfterIn, RunCommandFinish, cdBare, runLoop,
    cdStep, hf, handle_directory_error, progOf, CountCommands]

/-- Witness for C10 in the concrete environment (the kernel faults on
the null pointer). -/
theorem C10_witness :
    (RunCommand envOk "/" .ign .ign cdBare).msgs = ["Invalid argument"] ∧
    (RunCommand envOk "/" .ign .ign cdBare).spawned = [] ∧
    (RunCommand envOk "/" .ign .ign cdBare).shellExited = none ∧
    (RunCommand envOk "/" .ign .ign cdBare).finalCwd = "/" :=
  C10_bare_cd_invalid_argument envOk "/" .ign .ign rfl

/-- C2 counterexample: in the concrete run of `nosuch > out.txt`, the
stage whose `execvp` fails with `ENOENT` reports on the untouched error
stream (fd 2, while its standard output was redirected to fd 3) and then
terminates with exit status 0 — not with a non-zero status as the claim
states (`exit(0)` follows `handle_command` in the child). -/
theorem C2_counterexample :
    (RunCommand envExecFail "/" .ign .ign cmdNosuchRedir).spawned.map
        (fun c => (c.execErr, c.exitStatus, c.stderrFd, c.stdoutFd,
          c.stderrMsgs))
      = [(some Errno.enoent, some 0, 2, 3,
          ["Could not find executable: nosuch"])] := by
  rfl

/-- C2 (amended): for every stage whose process-image replacement fails,
the child reports the launch error on the interpreter's own error stream
(fd 2, never redirected — only fds 0 and 1 are `dup2`ed) with the
message chosen by `handle_command`, and then terminates with exit status
zero (not a non-zero status); sibling stages are unaffected — one child
per stage is still spawned and the invocation still completes with the
interpreter alive. -/
theorem C2_launch_failure_stderr_status_zero (env : Env) (cwd0 : String)
    (cmd : Command)
    (hopen : ∀ p, env.openErr p = none) (hcreat : ∀ p, env.creatErr p = none)
    (hpipe : ∀ k, env.pipeFails k = false)
    (hext : ∀ c ∈ cmd.pgm, progOf c ≠ "exit" ∧ progOf c ≠ "cd")
    (hbg : cmd.background = false) :
    (∀ c ∈ (RunCommand env cwd0 .ign .ign cmd).spawned,
      c.stderrFd = STDERR_FILENO ∧
      c.execErr = (handle_command env c.argv).fst ∧
      c.stderrMsgs = (handle_command env c.argv).snd ∧
      (c.execErr.isSome → c.exitStatus = some 0)) ∧
    (RunCommand env cwd0 .ign .ign cmd).spawned.length = cmd.pgm.length ∧
    (RunCommand env cwd0 .ign .ign cmd).shellExited = none := by
  obtain ⟨p1, p2, p3, p4, p5, p6⟩ :=
    RunCommand_external_summary env cwd0 cmd hopen hcreat hpipe hext hbg
  refine ⟨?_, p6, p4⟩
  intro c hc
  obtain ⟨w1, w2, w3, w4, w5, w6⟩ :=
    RunCommand_spawned_wf env cwd0 .ign .ign cmd c hc
  refine ⟨w2, w4, w5, ?_⟩
  intro hsome
  rw [w4] at hsome
  rw [w6]
  cases hfst : (handle_command env c.argv).fst with
  | none => rw [hfst] at hsome; simp at hsome
  | some e => rfl

/-- Witness for the amended C2: the run of `nosuch > out.txt`. -/
theorem C2_witness :
    ((RunCommand envExecFail "/" .ign .ign cmdNosuchRedir).spawned.headD
        (childRun envExecFail ["nosuch"] 1000 0 3 "/")).stderrFd
      = STDERR_FILENO ∧
    ((RunCommand envExecFail "/" .ign .ign cmdNosuchRedir).spawned.headD
        (childRun envExecFail ["nosuch"] 1000 0 3 "/")).exitStatus = some 0 ∧
    (RunCommand envExecFail "/" .ign .ign cmdNosuchRedir).spawned.length
      = cmdNosuchRedir.pgm.length := by
  obtain ⟨h1, h2, h3⟩ :=
    C2_launch_failure_stderr_status_zero envExecFail "/" cmdNosuchRedir
      (fun _ => rfl) (fun _ => rfl) (fun _ => rfl) (by decide) rfl
  obtain ⟨k1, k2, k3, k4⟩ :=
    h1 ((RunCommand envExecFail "/" .ign .ign cmdNosuchRedir).spawned.headD
      (childRun envExecFail ["nosuch"] 1000 0 3 "/")) (by decide)
  exact ⟨k1, k4 (by rw [k2]; decide), h2⟩

/-- C3: a pipeline-setup failure aborts only the affected pipeline and
never terminates the interpreter process: whatever the environment does
(redirection failure, pipe failure), an invocation with no `exit` stage
leaves the interpreter alive and prompting.  On a pipe-creation failure
(second `pipe` call failing in `a | b | c`), the already-spawned child
keeps running — it is spawned and never killed — while construction of
further stages stops and `Pipe failed` is reported. -/
theorem C3_setup_failure_aborts_only_pipeline (env : Env) (cwd0 : String)
    (sigint0 sigchld0 : Disposition) (cmd : Command)
    (hno : ∀ c ∈ cmd.pgm, progOf c ≠ "exit") :
    (RunCommand env cwd0 sigint0 sigchld0 cmd).shellExited = none ∧
    (RunCommand envPipeFail1 "/" .ign .ign cmdABC).shellExited = none ∧
    (RunCommand envPipeFail1 "/" .ign .ign cmdABC).msgs = ["Pipe failed"] ∧
    (RunCommand envPipeFail1 "/" .ign .ign cmdABC).spawned.map ChildSpec.prog
        = ["c"] ∧
    cmdABC.pgm.length = 3 := by
  exact ⟨RunCommand_shellExited_none env cwd0 sigint0 sigchld0 cmd hno,
    rfl, rfl, rfl, rfl⟩

/-- Witness for C3 at the concrete pipeline `a | b`. -/
theorem C3_witness :
    (RunCommand envOk "/" .ign .ign cmdAB).shellExited = none ∧
    (RunCommand envPipeFail1 "/" .ign .ign cmdABC).shellExited = none ∧
    (RunCommand envPipeFail1 "/" .ign .ign cmdABC).msgs = ["Pipe failed"] ∧
    (RunCommand envPipeFail1 "/" .ign .ign cmdABC).spawned.map ChildSpec.prog
        = ["c"] ∧
    cmdABC.pgm.length = 3 :=
  C3_setup_failure_aborts_only_pipeline envOk "/" .ign .ign cmdAB (by decide)

/-- C6: the `cd` built-in runs synchronously inside the interpreter
without forking: on success the invocation's final working directory is
the target, and every child spawned by a later invocation started from
that directory (with no further `cd`) inherits it; with an invalid path
(`ENOENT`) the handler prints `No such path` and the working directory
is unchanged — in both cases zero children are spawned and the
interpreter survives. -/
theorem C6_cd_synchronous_no_fork (env : Env) (cwd0 path : String)
    (sigint0 sigchld0 : Disposition) :
    (env.chdirErr (some path) = none →
      (RunCommand env cwd0 sigint0 sigchld0 (cdCmd path)).finalCwd = path ∧
      (RunCommand env cwd0 sigint0 sigchld0 (cdCmd path)).spawned = [] ∧
      (RunCommand env cwd0 sigint0 sigchld0 (cdCmd path)).shellExited
          = none ∧
      (∀ (env2 : Env) (sg1 sg2 : Disposition) (cmd2 : Command),
        (∀ st ∈ cmd2.pgm, progOf st ≠ "cd") →
        ∀ c ∈ (RunCommand env2
            ((RunCommand env cwd0 sigint0 sigchld0 (cdCmd path)).finalCwd)
            sg1 sg2 cmd2).spawned,
          c.cwd = path)) ∧
    (env.chdirErr (some path) = some Errno.enoent →
      (RunCommand env cwd0 sigint0 sigchld0 (cdCmd path)).msgs
          = ["No such path"] ∧
      (RunCommand env cwd0 sigint0 sigchld0 (cdCmd path)).finalCwd = cwd0 ∧
      (RunCommand env cwd0 sigint0 sigchld0 (cdCmd path)).spawned = [] ∧
      (RunCommand env cwd0 sigint0 sigchld0 (cdCmd path)).shellExited
          = none) := by
  constructor
  · intro hok
    have hfin :
        (RunCommand env cwd0 sigint0 sigchld0 (cdCmd path)).finalCwd = path := by
      simp [RunCommand, RunCommandAfterIn, RunCommandFinish, cdCmd, runLoop,
        cdStep, hok, progOf, CountCommands]
    refine ⟨hfin, ?_, ?_, ?_⟩
    · simp [RunCommand, RunCommandAfterIn, RunCommandFinish, cdCmd, runLoop,
        cdStep, hok, progOf, CountCommands]
    · simp [RunCommand, RunCommandAfterIn, RunCommandFinish, cdCmd, runLoop,
        cdStep, hok, progOf, CountCommands]
    · intro env2 sg1 sg2 cmd2 hcd2 c hc
      rw [hfin] at hc
      exact RunCommand_spawned_cwd env2 path sg1 sg2 cmd2 hcd2 c hc
  · intro herr
    simp [RunCommand, RunCommandAfterIn, RunCommandFinish, cdCmd, runLoop,
      cdStep, herr, handle_directory_error, progOf, CountCommands]

/-- Witness for C6: `cd /tmp` succeeding and `cd /nope` failing. -/
theorem C6_witness :
    (RunCommand envOk "/" .ign .ign (cdCmd "/tmp")).finalCwd = "/tmp" ∧
    (RunCommand envOk "/" .ign .ign (cdCmd "/tmp")).spawned = [] ∧
    (RunCommand envBadDir "/" .ign .ign (cdCmd "/nope")).msgs
        = ["No such path"] ∧
    (RunCommand envBadDir "/" .ign .ign (cdCmd "/nope")).finalCwd = "/" := by
  obtain ⟨g1, _⟩ := C6_cd_synchronous_no_fork envOk "/" "/tmp" .ign .ign
  obtain ⟨_, k2⟩ := C6_cd_synchronous_no_fork envBadDir "/" "/nope" .ign .ign
  obtain ⟨a1, a2, a3, a4⟩ := g1 rfl
  obtain ⟨b1, b2, b3, b4⟩ := k2 rfl
  exact ⟨a1, a2, b1, b2⟩

/-- C9 counterexample: for the command line `a | b` the parser delivers
`[["b"], ["a"]]` (rightmost first) and the orchestrator spawns in
exactly that order — `b` before `a` — so it does not execute stages in
left-to-right pipeline order and performs no reversal. -/
theorem C9_counterexample :
    (RunCommand envOk "/" .ign .ign cmdAB).spawned.map ChildSpec.prog
        = ["b", "a"] ∧
    cmdAB.pgm.reverse.map progOf = ["a", "b"] ∧
    (["b", "a"] : List String) ≠ ["a", "b"] :=
  ⟨rfl, rfl, by decide⟩

/-- C9 (amended): the orchestrator iterates the parser-delivered stage
list in its given order — the rightmost stage is spawned first, i.e.
spawn order is right-to-left — and performs no reversal; the descriptor
wiring still connects adjacent stages through the per-iteration pipe, as
the concrete run of `a | b` shows: the first-spawned stage `b` reads the
pipe's read end (fd 3) and the later-spawned stage `a` writes its write
end (fd 4). -/
theorem C9_spawns_in_delivered_order (env : Env) (cwd0 : String)
    (cmd : Command)
    (hopen : ∀ p, env.openErr p = none) (hcreat : ∀ p, env.creatErr p = none)
    (hpipe : ∀ k, env.pipeFails k = false)
    (hext : ∀ c ∈ cmd.pgm, progOf c ≠ "exit" ∧ progOf c ≠ "cd")
    (hbg : cmd.background = false) :
    (RunCommand env cwd0 .ign .ign cmd).spawned.map ChildSpec.prog
        = cmd.pgm.map progOf ∧
    (RunCommand envOk "/" .ign .ign cmdAB).spawned.map
        (fun c => (c.prog, c.stdinFd, c.stdoutFd))
      = [("b", 3, 1), ("a", 0, 4)] := by
  obtain ⟨p1, p2, p3, p4, p5, p6⟩ :=
    RunCommand_external_summary env cwd0 cmd hopen hcreat hpipe hext hbg
  exact ⟨p3, rfl⟩

/-- Witness for the amended C9 at the three-stage pipeline
`a | b | c`. -/
theorem C9_witness :
    (RunCommand envOk "/" .ign .ign cmdABC).spawned.map ChildSpec.prog
        = cmdABC.pgm.map progOf ∧
    (RunCommand envOk "/" .ign .ign cmdAB).spawned.map
        (fun c => (c.prog, c.stdinFd, c.stdoutFd))
      = [("b", 3, 1), ("a", 0, 4)] :=
  C9_spawns_in_delivered_order envOk "/" cmdABC (fun _ => rfl) (fun _ => rfl)
    (fun _ => rfl) (by decide) rfl

end Lsh
